import Mathlib

/-!
Shallow embedding of `src/steam_download_monitor.py` (the log-tailing core:
line classification, tracker-state update, active-subject selection, report
rendering, and bounded-window reopen).  Text is modelled as `List Char` /
`String`; wall-clock instants (Python `time.time()` floats) as `Nat`; the
numeric speed value (Python `float`) is kept as the exact captured digit
string, since no verified property depends on binary-float arithmetic.
-/

namespace Monitor

/-- Characters Python's `str.strip()` / regex `\s` treat as whitespace
(ASCII subset; the log lines at issue are ASCII plus Cyrillic letters,
none of which are whitespace). -/
def pyIsSpace (c : Char) : Bool :=
  c = ' ' || c = '\t' || c = '\n' || c = '\r' || c = '\x0b' || c = '\x0c'

/-- Regex `\d` / Python `str.isdigit` on ASCII. -/
def pyIsDigit (c : Char) : Bool :=
  '0' ≤ c && c ≤ '9'

/-- Character of the class `[0-9.]` used by the three metric regexes. -/
def numDotChar (c : Char) : Bool :=
  pyIsDigit c || c = '.'

/-- ASCII lower-casing of one character (Python `str.lower`; the keyword
tests in the source only involve ASCII letters). -/
def lowerChar (c : Char) : Char :=
  if 'A' ≤ c && c ≤ 'Z' then Char.ofNat (c.toNat + 32) else c

/-- Convenience: the character list of a string literal. -/
def chars (s : String) : List Char :=
  s.toList

/-- Python `str.strip()` on a character list. -/
def pstrip (cs : List Char) : List Char :=
  ((cs.dropWhile pyIsSpace).reverse.dropWhile pyIsSpace).reverse

/-- Python `str.strip()` on a `String`. -/
def stripStr (s : String) : String :=
  (pstrip s.toList).asString

/-- Python `str.lower()` on a `String` (ASCII range). -/
def lowerStr (s : String) : String :=
  (s.toList.map lowerChar).asString

/-- Does the second list start with the first list (in order)? -/
def leadsWith : List Char → List Char → Bool
  | [], _ => true
  | _ :: _, [] => false
  | a :: as, b :: bs => a = b && leadsWith as bs

/-- Substring containment on character lists (Python `needle in hay`). -/
def subList (n : List Char) : List Char → Bool
  | [] => n.isEmpty
  | c :: cs => leadsWith n (c :: cs) || subList n cs

/-- Python `needle in hay` on strings. -/
def occursIn (needle hay : String) : Bool :=
  subList (chars needle) (chars hay)

/-!
Token-list embedding of the eight compiled regular expressions of the
source (lines 11-25).  Each pattern is a sequence of tokens; `matchToks`
matches a token list at the start of the input (with Python's greedy,
backtracking semantics for `.*`, which is the only construct of these
patterns that needs backtracking: the character classes `\s`, `\d`,
`[0-9.]` are disjoint from the literal that follows each of their uses,
so maximal munch is exact for them), and `searchToks` adds `re.search`'s
leftmost-start semantics.  Captured groups are returned left to right.
-/

/-- One token of a source regex. -/
inductive Tok where
  /-- Literal text. -/
  | lit (s : List Char)
  /-- Regex `\s+`. -/
  | ws1
  /-- Regex `\s*`. -/
  | ws0
  /-- Regex `\d+` or `([0-9]+)`; captured when `cap` is true. -/
  | digits (cap : Bool)
  /-- Regex `[0-9.]+`; captured when `cap` is true. -/
  | numdot (cap : Bool)
  /-- Regex `.*` (greedy, does not cross a newline); captured when `cap`
  is true. -/
  | dotStar (cap : Bool)
  /-- The timestamp pattern `\d{4}-\d{2}-\d{2} \d{2}:\d{2}:\d{2}`. -/
  | stamp (cap : Bool)
deriving Repr, DecidableEq

/-- Character-class pattern of the timestamp: four digits, `-`, two
digits, `-`, two digits, space, two digits, `:`, two digits, `:`, two
digits. -/
def stampPat : List (Char → Bool) :=
  [pyIsDigit, pyIsDigit, pyIsDigit, pyIsDigit, (· = '-'),
   pyIsDigit, pyIsDigit, (· = '-'), pyIsDigit, pyIsDigit, (· = ' '),
   pyIsDigit, pyIsDigit, (· = ':'), pyIsDigit, pyIsDigit, (· = ':'),
   pyIsDigit, pyIsDigit]

/-- Match a fixed sequence of character predicates, returning the consumed
characters and the rest. -/
def matchFixed : List (Char → Bool) → List Char → Option (List Char × List Char)
  | [], cs => some ([], cs)
  | _ :: _, [] => none
  | p :: ps, c :: cs =>
      if p c then
        (matchFixed ps cs).map (fun r => (c :: r.1, r.2))
      else none

/-- Match a token list at the start of `cs` (the match need not reach the
end of `cs`, as in Python), returning the captured groups in order. -/
def matchToks : List Tok → List Char → Option (List (List Char))
  | [], _ => some []
  | Tok.lit s :: ts, cs =>
      if leadsWith s cs then matchToks ts (cs.drop s.length) else none
  | Tok.ws1 :: ts, cs =>
      if (cs.takeWhile pyIsSpace).isEmpty then none
      else matchToks ts (cs.dropWhile pyIsSpace)
  | Tok.ws0 :: ts, cs => matchToks ts (cs.dropWhile pyIsSpace)
  | Tok.digits cap :: ts, cs =>
      if (cs.takeWhile pyIsDigit).isEmpty then none
      else (matchToks ts (cs.dropWhile pyIsDigit)).map
        (fun gs => if cap then cs.takeWhile pyIsDigit :: gs else gs)
  | Tok.numdot cap :: ts, cs =>
      if (cs.takeWhile numDotChar).isEmpty then none
      else (matchToks ts (cs.dropWhile numDotChar)).map
        (fun gs => if cap then cs.takeWhile numDotChar :: gs else gs)
  | Tok.dotStar cap :: ts, cs =>
      ((List.range ((cs.takeWhile (· ≠ '\n')).length + 1)).reverse).findSome?
        (fun n => (matchToks ts (cs.drop n)).map
          (fun gs => if cap then cs.take n :: gs else gs))
  | Tok.stamp cap :: ts, cs =>
      match matchFixed stampPat cs with
      | none => none
      | some (d, rest) =>
          (matchToks ts rest).map (fun gs => if cap then d :: gs else gs)

/-- `re.search`: try the match at every start position, leftmost first. -/
def searchToks (ts : List Tok) : List Char → Option (List (List Char))
  | [] => matchToks ts []
  | c :: rest =>
    match matchToks ts (c :: rest) with
    | some gs => some gs
    | none => searchToks ts rest

/-- Source line 21: `AppID\s+(\d+)\s+.*update changed\s*:\s*(.*)`. -/
def upd_changed_re : List Tok :=
  [.lit (chars "AppID"), .ws1, .digits true, .ws1, .dotStar false,
   .lit (chars "update changed"), .ws0, .lit (chars ":"), .ws0, .dotStar true]

/-- Source line 22: `AppID\s+(\d+)\s+update started\s*:`. -/
def upd_started_re : List Tok :=
  [.lit (chars "AppID"), .ws1, .digits true, .ws1,
   .lit (chars "update started"), .ws0, .lit (chars ":")]

/-- Source line 23: `AppID\s+(\d+)\s+update canceled\s*:`. -/
def upd_canceled_re : List Tok :=
  [.lit (chars "AppID"), .ws1, .digits true, .ws1,
   .lit (chars "update canceled"), .ws0, .lit (chars ":")]

/-- Source line 24: `AppID\s+(\d+)\s+finished update`. -/
def finished_re : List Tok :=
  [.lit (chars "AppID"), .ws1, .digits true, .ws1,
   .lit (chars "finished update")]

/-- Source line 25: `AppID\s+(\d+)\s+state changed\s*:\s*(.*)`. -/
def state_changed_re : List Tok :=
  [.lit (chars "AppID"), .ws1, .digits true, .ws1,
   .lit (chars "state changed"), .ws0, .lit (chars ":"), .ws0, .dotStar true]

/-- Source lines 11-13 (anchored by `^`):
`^\[(\d{4}-\d{2}-\d{2} \d{2}:\d{2}:\d{2})\].*Current download rate:\s*([0-9.]+)\s*Mbps`. -/
def rate_re : List Tok :=
  [.lit (chars "["), .stamp true, .lit (chars "]"), .dotStar false,
   .lit (chars "Current download rate:"), .ws0, .numdot true, .ws0,
   .lit (chars "Mbps")]

/-- Source lines 14-16 (anchored by `^`):
`^\[(stamp)\].*\(rate was\s*[0-9.]+,\s*now\s*([0-9.]+)\)`. -/
def inc_re : List Tok :=
  [.lit (chars "["), .stamp true, .lit (chars "]"), .dotStar false,
   .lit (chars "(rate was"), .ws0, .numdot false, .lit (chars ","), .ws0,
   .lit (chars "now"), .ws0, .numdot true, .lit (chars ")")]

/-- Source lines 17-19 (anchored by `^`):
`^\[(stamp)\].*stats:\s*\(Invalid,\s*0\)\s*:\s*([0-9]+)\s*Bytes,\s*([0-9]+)\s*sec\s*\(([0-9.]+)\s*Mbps\)\.`. -/
def stats_re : List Tok :=
  [.lit (chars "["), .stamp true, .lit (chars "]"), .dotStar false,
   .lit (chars "stats:"), .ws0, .lit (chars "(Invalid,"), .ws0,
   .lit (chars "0)"), .ws0, .lit (chars ":"), .ws0, .digits true, .ws0,
   .lit (chars "Bytes,"), .ws0, .digits true, .ws0, .lit (chars "sec"),
   .ws0, .lit (chars "("), .numdot true, .ws0, .lit (chars "Mbps).")]

/-- The event extracted from one log line; one constructor per regex
branch of `parse_line` (source lines 148-219).  Metric constructors carry
the captured log timestamp and the captured numeric text (the source
applies `float` to the latter; the exact text is kept here). -/
inductive Event where
  | updChanged (appid raw : String)
  | updStarted (appid : String)
  | updCanceled (appid : String)
  | updFinished (appid : String)
  | stateChanged (appid raw : String)
  | rate (log_ts value : String)
  | inc (log_ts value : String)
  | stats (log_ts value : String)
deriving Repr, DecidableEq

/-- The classification half of `parse_line` (source lines 148-219): the
regexes are tried in source order, first match wins; `re.search` is used
for the five AppID patterns and anchored matching for the three metric
patterns (whose sources start with `^`). -/
def group1 : Option (List (List Char)) → Option String
  | some (a :: _) => some a.asString
  | _ => none

/-- First and second captured groups as strings. -/
def group12 : Option (List (List Char)) → Option (String × String)
  | some (a :: b :: _) => some (a.asString, b.asString)
  | _ => none

/-- First and fourth captured groups as strings (the `stats` pattern
captures timestamp, bytes, seconds, rate; the source uses groups 1 and
4). -/
def group14 : Option (List (List Char)) → Option (String × String)
  | some (a :: _ :: _ :: d :: _) => some (a.asString, d.asString)
  | _ => none

def classify (cs : List Char) : Option Event :=
  match group12 (searchToks upd_changed_re cs) with
  | some (a, r) => some (Event.updChanged a r)
  | none =>
  match group1 (searchToks upd_started_re cs) with
  | some a => some (Event.updStarted a)
  | none =>
  match group1 (searchToks upd_canceled_re cs) with
  | some a => some (Event.updCanceled a)
  | none =>
  match group1 (searchToks finished_re cs) with
  | some a => some (Event.updFinished a)
  | none =>
  match group12 (searchToks state_changed_re cs) with
  | some (a, r) => some (Event.stateChanged a r)
  | none =>
  match group12 (matchToks rate_re cs) with
  | some (ts, v) => some (Event.rate ts v)
  | none =>
  match group12 (matchToks inc_re cs) with
  | some (ts, v) => some (Event.inc ts v)
  | none =>
  match group14 (matchToks stats_re cs) with
  | some (ts, v) => some (Event.stats ts v)
  | none => none

/-- Tracker State (source class `State`, lines 96-106).  `speed` holds the
captured numeric text of the last metric line (`None` initially and after
an active download finishes); `speed_wall_ts` is the host-clock instant at
which the sample was stored (`0.0` initially). -/
structure State where
  active_app : Option String
  active_status : String
  app_status : List (String × String)
  seen : List (String × Nat)
  speed : Option String
  speed_wall_ts : Nat
  speed_log_ts : String
  speed_src : String
deriving Repr, DecidableEq

/-- The freshly constructed tracker state (source `State.__init__`). -/
def State.empty : State :=
  { active_app := none, active_status := "", app_status := [], seen := [],
    speed := none, speed_wall_ts := 0, speed_log_ts := "", speed_src := "" }

/-- Python-dict lookup on an insertion-ordered association list
(`d.get(k)`). -/
def lookup (k : String) : List (String × α) → Option α
  | [] => none
  | (k', v) :: rest => if k' = k then some v else lookup k rest

/-- Python-dict assignment `d[k] = v` on an insertion-ordered association
list: an existing key keeps its position, a new key is appended. -/
def upsert (k : String) (v : α) : List (String × α) → List (String × α)
  | [] => [(k, v)]
  | (k', v') :: rest =>
      if k' = k then (k, v) :: rest else (k', v') :: upsert k v rest

/-- Status normalisation (source `nice_status`, lines 109-125): checks are
on the lower-cased raw text, in source order, first hit wins. -/
def nice_status (raw : String) : String :=
  let s := lowerStr raw
  if occursIn "suspended" s then "Пауза"
  else if occursIn "downloading" s then "Скачивание"
  else if occursIn "staging" s then "Стадия (staging)"
  else if occursIn "committing" s then "Установка (commit)"
  else if occursIn "verifying" s then "Проверка"
  else if occursIn "reconfiguring" s then "Подготовка"
  else if occursIn "preallocating" s then "Выделение места"
  else "Нет"

/-- The active-keyword test of the `update changed` branch (source line
157): any of six keywords occurring in the lower-cased raw text. -/
def hasActiveKeyword (raw : String) : Bool :=
  ["downloading", "staging", "committing", "verifying", "preallocating",
   "reconfiguring"].any (fun k => occursIn k (lowerStr raw))

/-- Source `_set_speed` (lines 141-146): unconditionally overwrite the
single metric sample; `now` is the host clock (`time.time()`). -/
def set_speed (st : State) (mbps log_ts src : String) (now : Nat) : State :=
  { st with speed := some mbps, speed_wall_ts := now,
            speed_log_ts := log_ts, speed_src := src }

/-- The update half of `parse_line` (source lines 148-219), one branch per
classified event, mirrored statement by statement. -/
def applyEvent (e : Event) (now : Nat) (st : State) : State :=
  match e with
  | .updChanged appid raw =>
      let ss := nice_status raw
      let st1 := { st with app_status := upsert appid ss st.app_status,
                           seen := upsert appid now st.seen }
      let st2 :=
        if hasActiveKeyword raw then
          { st1 with active_app := some appid, active_status := ss }
        else st1
      if lowerStr (stripStr raw) = "none" then
        { st2 with app_status := upsert appid "Нет" st2.app_status }
      else st2
  | .updStarted appid =>
      { st with active_app := some appid, active_status := "Скачивание",
                app_status := upsert appid "Скачивание" st.app_status,
                seen := upsert appid now st.seen }
  | .updCanceled appid =>
      let st1 := { st with app_status := upsert appid "Пауза" st.app_status,
                           seen := upsert appid now st.seen }
      if st.active_app = some appid then { st1 with active_status := "Пауза" }
      else st1
  | .updFinished appid =>
      let st1 := { st with app_status := upsert appid "Готово" st.app_status,
                           seen := upsert appid now st.seen }
      if st.active_app = some appid then
        { st1 with active_app := none, active_status := "",
                   speed := none, speed_wall_ts := 0 }
      else st1
  | .stateChanged appid raw =>
      if occursIn "suspended" (lowerStr raw) then
        let st1 := { st with app_status := upsert appid "Пауза" st.app_status,
                             seen := upsert appid now st.seen }
        if st.active_app = some appid then
          { st1 with active_status := "Пауза" }
        else st1
      else st
  | .rate ts v => set_speed st v ts "rate" now
  | .inc ts v => set_speed st v ts "inc" now
  | .stats ts v => set_speed st v ts "stats" now

/-- Source `parse_line` (lines 148-219): classify the line against the
ordered regex list and apply the matching branch; a line matching no
pattern leaves the state unchanged. -/
def parse_line (line : List Char) (now : Nat) (st : State) : State :=
  match classify line with
  | some e => applyEvent e now st
  | none => st

/-- The Classifier→Updater pipeline over a line sequence at a fixed
processing wall-clock time: each line is stripped and fed to `parse_line`,
as both call sites of the source do (lines 243 and 275). -/
def runLines (now : Nat) (ls : List (List Char)) (st : State) : State :=
  ls.foldl (fun s l => parse_line (pstrip l) now s) st

/-- The pipeline with an arbitrary wall-clock instant attached to each
line. -/
def runTimed (ls : List (List Char × Nat)) (st : State) : State :=
  ls.foldl (fun s p => parse_line (pstrip p.1) p.2 s) st

/-- Active-subject inference (source `pick_active`, lines 128-138, scan
half): iterate `st.seen` in insertion order; among subjects whose status
is truthy and neither `Нет` nor `Готово`, keep the one with the strictly
greatest timestamp (the first such subject wins a tie). -/
def inferActive (st : State) : Option String :=
  let best := st.seen.foldl
    (fun b (p : String × Nat) =>
      let ss := (lookup p.1 st.app_status).getD ""
      if ss ≠ "" ∧ ss ≠ "Нет" ∧ ss ≠ "Готово" then
        match b with
        | none => some (p.2, p.1)
        | some q => if q.1 < p.2 then some (p.2, p.1) else some q
      else b)
    none
  best.map Prod.snd

/-- Source `pick_active` (lines 128-138): a truthy `active_app` is
authoritative (Python `if st.active_app:`, so the empty string also falls
through to inference); otherwise scan `seen`. -/
def pick_active (st : State) : Option String :=
  match st.active_app with
  | some a => if a = "" then inferActive st else some a
  | none => inferActive st

/-- The effective status of source line 294:
`st.app_status.get(appid, st.active_status) or "?"`. -/
def effStatus (st : State) (appid : String) : String :=
  let s0 := (lookup appid st.app_status).getD st.active_status
  if s0 = "" then "?" else s0

/-- Staleness threshold of source line 254 (`stale_sec = 300`). -/
def stale_sec : Nat := 300

/-- Source line 284: the sample is usable when present and at most
`stale_sec` old on the host clock.  (With `Nat` instants a sample stored
"in the future" truncates to age 0, exactly as the Python float
difference is then negative: both count as fresh.) -/
def speedFresh (st : State) (now : Nat) : Bool :=
  st.speed.isSome && decide (now - st.speed_wall_ts ≤ stale_sec)

/-- The four shapes of report emitted by one tick (source lines 286-303),
before the common `[<out_time>] ` prefix is attached. -/
inductive Msg where
  | nothingActive
  | paused (name ss : String)
  | speedUnknown (name ss : String)
  | speedVal (name ss value : String)
deriving Repr, DecidableEq

/-- The status string carried by a report, when it shows one. -/
def Msg.status : Msg → Option String
  | .nothingActive => none
  | .paused _ ss => some ss
  | .speedUnknown _ ss => some ss
  | .speedVal _ ss _ => some ss

/-- One report tick (source lines 282-303): select the active subject
(`if not appid` also rejects a falsy empty key), resolve its display name
through the external `manifest_name` collaborator (`if not name` rejects
both a missing and an empty name), compute the effective status, and pick
the message shape.  `resolve` abstracts `manifest_name(libs, ·)`. -/
def reportMsg (st : State) (resolve : String → Option String) (now : Nat) :
    Msg :=
  match pick_active st with
  | none => Msg.nothingActive
  | some appid =>
    if appid = "" then Msg.nothingActive
    else
      let name := (resolve appid).getD ""
      if name = "" then Msg.nothingActive
      else
        let ss := effStatus st appid
        if ss = "Пауза" then Msg.paused name ss
        else if speedFresh st now then
          Msg.speedVal name ss (st.speed.getD "")
        else Msg.speedUnknown name ss

/-- Decimal digits of a natural number (most significant first). -/
def natDigits (n : Nat) : List Char :=
  Nat.toDigits 10 n

/-- Interpret a list of decimal digits as a natural number. -/
def digitsToNat (cs : List Char) : Nat :=
  cs.foldl (fun n c => n * 10 + (c.toNat - 48)) 0

/-- Left-pad with zeros to three characters. -/
def padLeft3 (cs : List Char) : List Char :=
  List.replicate (3 - cs.length) '0' ++ cs

/-- Carry of rounding a decimal expansion to the kept prefix: the digits
`rest` follow the last kept digit; ties round to even (the kept value is
`kept`). -/
def roundCarry (kept : Nat) (rest : List Char) : Nat :=
  match rest with
  | [] => 0
  | d :: ds =>
    if d.toNat < 53 then 0
    else if 53 < d.toNat then 1
    else if ds.all (fun c => c = '0') then (if kept % 2 = 0 then 0 else 1)
    else 1

/-- The `f"{x:.3f}"` rendering of source line 303, on the captured numeric
text `v` (digits with an optional decimal point).  This equals CPython's
formatting of `float(v)` whenever `v` carries at most three fractional
digits (the regime of every concrete value in this file); beyond that the
source rounds the binary double while this rounds the decimal text. -/
def fmt3 (v : String) : String :=
  let cs := v.toList
  let ip := cs.takeWhile (fun c => c ≠ '.')
  let fp := (cs.dropWhile (fun c => c ≠ '.')).drop 1
  let scaled0 := digitsToNat ip * 1000 + digitsToNat ((fp ++ chars "000").take 3)
  let scaled := scaled0 + roundCarry scaled0 (fp.drop 3)
  (natDigits (scaled / 1000)).asString ++ "." ++
    (padLeft3 (natDigits (scaled % 1000))).asString

/-- The exact text printed for a report (source lines 287, 292, 297, 301,
303), including the trailing `" | "` the source appends after `Mbps` in
the fresh-metric branch.  `out_time` abstracts
`datetime.now().strftime("%Y-%m-%d %H:%M:%S")`. -/
def renderMsg (out_time : String) : Msg → String
  | .nothingActive => "[" ++ out_time ++ "] Ничего не загружается"
  | .paused name ss => "[" ++ out_time ++ "] " ++ name ++ " | " ++ ss
  | .speedUnknown name ss =>
      "[" ++ out_time ++ "] " ++ name ++ " | " ++ ss ++ " | скорость: ?"
  | .speedVal name ss v =>
      "[" ++ out_time ++ "] " ++ name ++ " | " ++ ss ++ " | скорость: " ++
        fmt3 v ++ " Mbps | "

/-!
The Log Tailer (source `watch_log`, lines 222-275).  A file snapshot is a
character list; byte offsets are list indices (the observed log is treated
as single-byte text, which every pattern-relevant character is).
-/

/-- The replay window (source line 236: `size - 200000`). -/
def WINDOW_BYTES : Nat := 200000

/-- Source line 236: `start = max(0, size - 200000)` — `Nat` subtraction
is exactly the clamped form. -/
def reopenStart (size : Nat) : Nat :=
  size - WINDOW_BYTES

/-- Source line 240: the `f.readline()` that discards the remainder of the
partial line at the seek position — everything up to and including the
first newline (or everything, if no newline remains). -/
def dropThroughNL (cs : List Char) : List Char :=
  (cs.dropWhile (· ≠ '\n')).drop 1

/-- The pieces of a character list delimited by newlines (the final piece
follows the last newline and may be empty). -/
def splitNL : List Char → List (List Char)
  | [] => [[]]
  | c :: cs =>
      if c = '\n' then [] :: splitNL cs
      else
        match splitNL cs with
        | [] => [[c]]
        | l :: ls => (c :: l) :: ls

/-- The successive lines yielded by iterating a file (`for ln in f`),
newline terminators dropped: every newline ends a line, and a non-empty
trailing remainder is yielded as a final (unterminated) line. -/
def linesOf (cs : List Char) : List (List Char) :=
  match (splitNL cs).getLast? with
  | some [] => (splitNL cs).dropLast
  | _ => splitNL cs

/-- Source `reopen_tail` (lines 226-245) on a snapshot of the file's
content: seek to `start`, discard the partial line there when `start > 0`,
feed every remaining (stripped) line to `parse_line`, and return the new
state together with the new cursor `pos = f.tell()`, which after the
iteration is the snapshot's size. -/
def reopen_tail (content : List Char) (now : Nat) (st : State) :
    State × Nat :=
  let size := content.length
  let start := reopenStart size
  let tail0 := content.drop start
  let aligned := if 0 < start then dropThroughNL tail0 else tail0
  (runLines now (linesOf aligned) st, size)

/-- The `f.readline()` of source line 270 at cursor `pos`: the next line
including its newline terminator, or everything to the end of the
snapshot, or nothing at end of file. -/
def lineAt (c : List Char) (pos : Nat) : List Char :=
  let rest := c.drop pos
  let l := rest.takeWhile (· ≠ '\n')
  if l.length < rest.length then l ++ ['\n'] else l

/-- One pass of the tailing loop body (source lines 256-275, the state
and cursor effects of one iteration against one snapshot): when the
observed size is strictly below the cursor, reopen and replay; then
attempt to read one line at the cursor, parse it stripped, and advance
the cursor by the bytes consumed. -/
def tailStep (c : List Char) (pos now : Nat) (st : State) : State × Nat :=
  let sp := if c.length < pos then reopen_tail c now st else (st, pos)
  let ln := lineAt c sp.2
  if ln.isEmpty then sp
  else (parse_line (pstrip ln) now sp.1, sp.2 + ln.length)

/-- Event application over a list at a fixed wall-clock instant. -/
def runEvents (now : Nat) (es : List Event) (st : State) : State :=
  es.foldl (fun s e => applyEvent e now s) st

/-- The three metric event kinds. -/
def isMetric : Event → Bool
  | .rate _ _ => true
  | .inc _ _ => true
  | .stats _ _ => true
  | _ => false

/-- The MetricSample component of a state: value, wall-clock receipt
instant, log timestamp, source tag. -/
def sampleOf (st : State) : Option String × Nat × String × String :=
  (st.speed, st.speed_wall_ts, st.speed_log_ts, st.speed_src)

/-- Everything of a state except the MetricSample. -/
def frameOf (st : State) :
    Option String × String × List (String × String) × List (String × Nat) :=
  (st.active_app, st.active_status, st.app_status, st.seen)

/-! Association-list lemmas. -/

@[simp] theorem upsert_upsert {α : Type} (k : String) (v w : α)
    (m : List (String × α)) : upsert k v (upsert k w m) = upsert k v m := by
  induction m with
  | nil => simp [upsert]
  | cons p t ih =>
      obtain ⟨a, b⟩ := p
      by_cases h : a = k
      · simp [upsert, h]
      · simp [upsert, h, ih]

@[simp] theorem lookup_upsert_self {α : Type} (k : String) (v : α)
    (m : List (String × α)) : lookup k (upsert k v m) = some v := by
  induction m with
  | nil => simp [upsert, lookup]
  | cons p t ih =>
      obtain ⟨a, b⟩ := p
      by_cases h : a = k
      · simp [upsert, h, lookup]
      · simp [upsert, h, lookup, ih]

theorem lookup_upsert_isSome {α : Type} (j k : String) (v : α)
    (m : List (String × α)) :
    (lookup j (upsert k v m)).isSome ↔ j = k ∨ (lookup j m).isSome := by
  induction m with
  | nil =>
      by_cases h : j = k
      · simp [upsert, lookup, h]
      · simp [upsert, lookup, h, Ne.symm h]
  | cons p t ih =>
      obtain ⟨a, b⟩ := p
      by_cases hak : a = k
      · subst hak
        by_cases haj : a = j
        · subst haj; simp [upsert, lookup]
        · simp [upsert, lookup, haj, Ne.symm haj]
      · by_cases haj : a = j
        · subst haj; simp [upsert, lookup, hak]
        · simp [upsert, lookup, hak, haj, ih]

/-! Event-level lemmas. -/

/-- Each update branch of `parse_line` is idempotent: applying the same
classified event twice in immediate succession is the same as applying it
once. -/
theorem applyEvent_idem (e : Event) (now : Nat) (st : State) :
    applyEvent e now (applyEvent e now st) = applyEvent e now st := by
  cases e with
  | updChanged appid raw =>
      by_cases hk : hasActiveKeyword raw
      · by_cases hn : lowerStr (stripStr raw) = "none"
        · simp [applyEvent, hk, hn]
        · simp [applyEvent, hk, hn]
      · by_cases hn : lowerStr (stripStr raw) = "none"
        · simp [applyEvent, hk, hn]
        · simp [applyEvent, hk, hn]
  | updStarted appid => simp [applyEvent]
  | updCanceled appid =>
      by_cases h : st.active_app = some appid
      · simp [applyEvent, h]
      · simp [applyEvent, h]
  | updFinished appid =>
      by_cases h : st.active_app = some appid
      · simp [applyEvent, h]
      · simp [applyEvent, h]
  | stateChanged appid raw =>
      by_cases hs : occursIn "suspended" (lowerStr raw)
      · by_cases h : st.active_app = some appid
        · simp [applyEvent, hs, h]
        · simp [applyEvent, hs, h]
      · simp [applyEvent, hs]
  | rate ts v => simp [applyEvent, set_speed]
  | inc ts v => simp [applyEvent, set_speed]
  | stats ts v => simp [applyEvent, set_speed]

/-- A metric event overwrites the whole sample with data that does not
depend on the prior state. -/
theorem sampleOf_applyMetric (e : Event) (now : Nat) (st st' : State)
    (h : isMetric e = true) :
    sampleOf (applyEvent e now st) = sampleOf (applyEvent e now st') := by
  cases e <;> simp_all [isMetric, applyEvent, set_speed, sampleOf]

/-- A metric event changes nothing outside the sample. -/
theorem frameOf_applyMetric (e : Event) (now : Nat) (st : State)
    (h : isMetric e = true) :
    frameOf (applyEvent e now st) = frameOf st := by
  cases e <;> simp_all [isMetric, applyEvent, set_speed, frameOf]

/-- Every subject with a recorded status also has a last-seen entry. -/
def InvSeen (st : State) : Prop :=
  ∀ k, (lookup k st.app_status).isSome → (lookup k st.seen).isSome

/-- A set ActiveSubject has entries in both per-subject maps. -/
def InvActive (st : State) : Prop :=
  ∀ s, st.active_app = some s →
    (lookup s st.app_status).isSome ∧ (lookup s st.seen).isSome

theorem invSeen_applyEvent (e : Event) (now : Nat) (st : State)
    (h : InvSeen st) : InvSeen (applyEvent e now st) := by
  intro k
  have hk0 := h k
  cases e with
  | updChanged a raw =>
      by_cases hkw : hasActiveKeyword raw <;>
        by_cases hn : lowerStr (stripStr raw) = "none"
      all_goals
        intro hk
        simp [applyEvent, hkw, hn, lookup_upsert_isSome] at hk ⊢
        tauto
  | updStarted a =>
      intro hk
      simp [applyEvent, lookup_upsert_isSome] at hk ⊢
      tauto
  | updCanceled a =>
      by_cases ha : st.active_app = some a
      all_goals
        intro hk
        simp [applyEvent, ha, lookup_upsert_isSome] at hk ⊢
        tauto
  | updFinished a =>
      by_cases ha : st.active_app = some a
      all_goals
        intro hk
        simp [applyEvent, ha, lookup_upsert_isSome] at hk ⊢
        tauto
  | stateChanged a raw =>
      by_cases hs : occursIn "suspended" (lowerStr raw)
      · by_cases ha : st.active_app = some a
        all_goals
          intro hk
          simp [applyEvent, hs, ha, lookup_upsert_isSome] at hk ⊢
          tauto
      · intro hk
        simp [applyEvent, hs] at hk ⊢
        tauto
  | rate ts v =>
      intro hk
      simp [applyEvent, set_speed] at hk ⊢
      tauto
  | inc ts v =>
      intro hk
      simp [applyEvent, set_speed] at hk ⊢
      tauto
  | stats ts v =>
      intro hk
      simp [applyEvent, set_speed] at hk ⊢
      tauto

theorem invActive_applyEvent (e : Event) (now : Nat) (st : State)
    (h : InvActive st) : InvActive (applyEvent e now st) := by
  intro s
  have h0 := h s
  cases e with
  | updChanged a raw =>
      by_cases hkw : hasActiveKeyword raw
      · by_cases hn : lowerStr (stripStr raw) = "none"
        all_goals
          intro hs
          simp [applyEvent, hkw, hn] at hs ⊢
          subst hs
          simp [lookup_upsert_isSome]
      · by_cases hn : lowerStr (stripStr raw) = "none"
        all_goals
          intro hs
          simp [applyEvent, hkw, hn] at hs ⊢
          rcases h0 hs with ⟨h1, h2⟩
          constructor <;> simp [lookup_upsert_isSome] <;> tauto
  | updStarted a =>
      intro hs
      simp [applyEvent] at hs ⊢
      subst hs
      simp [lookup_upsert_isSome]
  | updCanceled a =>
      by_cases ha : st.active_app = some a
      · intro hs
        simp [applyEvent, ha] at hs ⊢
        subst hs
        rcases h0 ha with ⟨h1, h2⟩
        constructor <;> simp [lookup_upsert_isSome]
      · intro hs
        simp [applyEvent, ha] at hs ⊢
        rcases h0 hs with ⟨h1, h2⟩
        constructor <;> simp [lookup_upsert_isSome] <;> tauto
  | updFinished a =>
      by_cases ha : st.active_app = some a
      · intro hs
        simp [applyEvent, ha] at hs
      · intro hs
        simp [applyEvent, ha] at hs ⊢
        rcases h0 hs with ⟨h1, h2⟩
        constructor <;> simp [lookup_upsert_isSome] <;> tauto
  | stateChanged a raw =>
      by_cases hs0 : occursIn "suspended" (lowerStr raw)
      · by_cases ha : st.active_app = some a
        · intro hs
          simp [applyEvent, hs0, ha] at hs ⊢
          subst hs
          rcases h0 ha with ⟨h1, h2⟩
          constructor <;> simp [lookup_upsert_isSome]
        · intro hs
          simp [applyEvent, hs0, ha] at hs ⊢
          rcases h0 hs with ⟨h1, h2⟩
          constructor <;> simp [lookup_upsert_isSome] <;> tauto
      · intro hs
        simp [applyEvent, hs0] at hs ⊢
        exact h0 hs
  | rate ts v =>
      intro hs
      simp [applyEvent, set_speed] at hs ⊢
      exact h0 hs
  | inc ts v =>
      intro hs
      simp [applyEvent, set_speed] at hs ⊢
      exact h0 hs
  | stats ts v =>
      intro hs
      simp [applyEvent, set_speed] at hs ⊢
      exact h0 hs

theorem invSeen_parse_line (l : List Char) (now : Nat) (st : State)
    (h : InvSeen st) : InvSeen (parse_line l now st) := by
  cases hcl : classify l with
  | none => simpa [parse_line, hcl] using h
  | some e => simpa [parse_line, hcl] using invSeen_applyEvent e now st h

theorem invActive_parse_line (l : List Char) (now : Nat) (st : State)
    (h : InvActive st) : InvActive (parse_line l now st) := by
  cases hcl : classify l with
  | none => simpa [parse_line, hcl] using h
  | some e => simpa [parse_line, hcl] using invActive_applyEvent e now st h

theorem invSeen_runTimed (ls : List (List Char × Nat)) (st : State)
    (h : InvSeen st) : InvSeen (runTimed ls st) := by
  induction ls generalizing st with
  | nil => exact h
  | cons p t ih =>
      simpa [runTimed] using
        ih (parse_line (pstrip p.1) p.2 st) (invSeen_parse_line _ _ _ h)

theorem invActive_runTimed (ls : List (List Char × Nat)) (st : State)
    (h : InvActive st) : InvActive (runTimed ls st) := by
  induction ls generalizing st with
  | nil => exact h
  | cons p t ih =>
      simpa [runTimed] using
        ih (parse_line (pstrip p.1) p.2 st) (invActive_parse_line _ _ _ h)

theorem invSeen_empty : InvSeen State.empty := by
  intro k hk
  simp [State.empty, lookup] at hk

theorem invActive_empty : InvActive State.empty := by
  intro s hs
  simp [State.empty] at hs

/-! Concrete log-line material used by counterexamples and witnesses. -/

/-- A metric line, a finish line and a start line for the same subject:
replaying this sequence a second time is not a no-op, because on the
replay the `finished update` line sees subject 10 active (the first
pass's `update started` made it so) and therefore discards the metric
sample that the single pass had kept. -/
def replayLines : List (List Char) :=
  [chars "[2024-01-01 10:00:00] Current download rate: 5.0 Mbps",
   chars "AppID 10 finished update",
   chars "AppID 10 update started:"]

/-- A start line followed by an `update changed` line whose raw status
text (`test`) contains no active keyword: the second line rewrites
`status-by-subject` to `Нет` while `ActiveSubject`'s cached status stays
`Скачивание`. -/
def lockstepLines : List (List Char) :=
  [chars "AppID 10 update started:",
   chars "AppID 10 update changed : test"]

/-- A start line followed by a rate line: subject 10 downloading at
12.5 Mbps. -/
def downloadLines : List (List Char) :=
  [chars "AppID 10 update started:",
   chars "[2024-01-01 10:00:01] Current download rate: 12.5 Mbps"]

/-- A 50-byte file snapshot holding two complete lines. -/
def smallContent : List Char :=
  chars "AppID 10 update started:\nAppID 10 finished update\n"

/-- A resolver knowing subject 10 as `Game X` (the shape of
`manifest_name` for a single installed title). -/
def resolveGameX : String → Option String :=
  fun a => if a = "10" then some "Game X" else none

/-! Claim theorems. -/

/-- C1, counterexample: running the pipeline over `replayLines` twice from
the empty state does not equal running it once (the single pass keeps the
metric sample `5.0`; the replay discards it when the `finished update`
line meets the now-active subject). -/
theorem c1_replay_counterexample :
    runLines 100 (replayLines ++ replayLines) State.empty ≠
      runLines 100 replayLines State.empty := by
  decide

/-- C1 (amended): the pipeline is idempotent line by line — applying the
same log line (equivalently, the same classified event) twice in
immediate succession yields the same Tracker State as applying it once.
Replaying a whole *sequence* twice is not in general a no-op, as
`c1_replay_counterexample` shows. -/
theorem c1_single_line_idempotent :
    ∀ (l : List Char) (now : Nat) (st : State),
      parse_line l now (parse_line l now st) = parse_line l now st := by
  intro l now st
  cases hcl : classify l with
  | none => simp [parse_line, hcl]
  | some e => simp [parse_line, hcl, applyEvent_idem]

/-- C2, counterexample: after `lockstepLines` the state has ActiveSubject
`10` with cached status `Скачивание`, while `status-by-subject` maps `10`
to `Нет` — the two are not in lockstep. -/
theorem c2_lockstep_counterexample :
    (runLines 100 lockstepLines State.empty).active_app = some "10" ∧
    (runLines 100 lockstepLines State.empty).active_status = "Скачивание" ∧
    lookup "10" (runLines 100 lockstepLines State.empty).app_status =
      some "Нет" ∧
    ("Скачивание" : String) ≠ "Нет" := by
  decide

/-- C2 (amended): in every state reachable from the empty state, a set
ActiveSubject always has entries in both `status-by-subject` and
`last-seen-by-subject` (though the recorded status may differ from the
cached one, as `c2_lockstep_counterexample` shows). -/
theorem c2_active_subject_recorded :
    ∀ (ls : List (List Char × Nat)) (s : String),
      (runTimed ls State.empty).active_app = some s →
      (lookup s (runTimed ls State.empty).app_status).isSome ∧
      (lookup s (runTimed ls State.empty).seen).isSome := by
  intro ls s
  exact invActive_runTimed ls State.empty invActive_empty s

/-- Witness for `c2_active_subject_recorded` at a concrete replay. -/
theorem c2_active_subject_recorded_witness :
    (runTimed [(chars "AppID 10 update started:", 100)]
        State.empty).active_app = some "10" ∧
    ((lookup "10" (runTimed [(chars "AppID 10 update started:", 100)]
        State.empty).app_status).isSome ∧
     (lookup "10" (runTimed [(chars "AppID 10 update started:", 100)]
        State.empty).seen).isSome) :=
  ⟨by decide,
   c2_active_subject_recorded [(chars "AppID 10 update started:", 100)]
     "10" (by decide)⟩

/-- C4: the full effect of a `SubjectFinished` event, as one equation:
the subject's status becomes `Готово` (Done), its last-seen is updated,
and exactly when the subject was the ActiveSubject, the ActiveSubject
(key and cached status) is cleared and the metric sample is discarded;
otherwise ActiveSubject and the sample are untouched.  The sample's
`log_ts`/`src` remnants are never cleared, but its presence is
`speed.isSome`, which becomes `none`. -/
theorem c4_finished_effect :
    ∀ (S : String) (now : Nat) (st : State),
      applyEvent (Event.updFinished S) now st =
        { active_app := if st.active_app = some S then none
                        else st.active_app,
          active_status := if st.active_app = some S then ""
                           else st.active_status,
          app_status := upsert S "Готово" st.app_status,
          seen := upsert S now st.seen,
          speed := if st.active_app = some S then none else st.speed,
          speed_wall_ts := if st.active_app = some S then 0
                           else st.speed_wall_ts,
          speed_log_ts := st.speed_log_ts,
          speed_src := st.speed_src } := by
  intro S now st
  by_cases h : st.active_app = some S <;> simp [applyEvent, h]

/-- C10: in every state reachable from the empty state, every subject
with a `status-by-subject` entry also has a `last-seen-by-subject` entry,
so the inference scan of `pick_active` (which iterates `seen`) can
observe every subject with a recorded status. -/
theorem c10_status_keys_have_seen :
    ∀ (ls : List (List Char × Nat)) (k : String),
      (lookup k (runTimed ls State.empty).app_status).isSome →
      (lookup k (runTimed ls State.empty).seen).isSome := by
  intro ls k
  exact invSeen_runTimed ls State.empty invSeen_empty k

/-- Witness for `c10_status_keys_have_seen` at a concrete replay. -/
theorem c10_status_keys_have_seen_witness :
    (lookup "10" (runTimed [(chars "AppID 10 finished update", 42)]
        State.empty).app_status).isSome ∧
    (lookup "10" (runTimed [(chars "AppID 10 finished update", 42)]
        State.empty).seen).isSome :=
  ⟨by decide,
   c10_status_keys_have_seen [(chars "AppID 10 finished update", 42)]
     "10" (by decide)⟩

/-- C5: each of the three metric events unconditionally replaces the
whole MetricSample (value, log timestamp, source tag, wall receipt
instant) and touches nothing else (the `{st with ...}` form keeps
`status-by-subject`, `last-seen-by-subject` and ActiveSubject); after any
event sequence ending in a metric event the sample equals that last
event's, whatever the source tags before it; and a sequence of only
metric events leaves everything outside the sample unchanged. -/
theorem c5_metric_sample :
    (∀ (ts v : String) (now : Nat) (st : State),
       applyEvent (Event.rate ts v) now st =
         { st with speed := some v, speed_wall_ts := now,
                   speed_log_ts := ts, speed_src := "rate" }) ∧
    (∀ (ts v : String) (now : Nat) (st : State),
       applyEvent (Event.inc ts v) now st =
         { st with speed := some v, speed_wall_ts := now,
                   speed_log_ts := ts, speed_src := "inc" }) ∧
    (∀ (ts v : String) (now : Nat) (st : State),
       applyEvent (Event.stats ts v) now st =
         { st with speed := some v, speed_wall_ts := now,
                   speed_log_ts := ts, speed_src := "stats" }) ∧
    (∀ (es : List Event) (e : Event) (now : Nat) (st : State),
       isMetric e = true →
       sampleOf (runEvents now (es ++ [e]) st) =
         sampleOf (applyEvent e now st)) ∧
    (∀ (es : List Event) (now : Nat) (st : State),
       (∀ x ∈ es, isMetric x = true) →
       frameOf (runEvents now es st) = frameOf st) := by
  refine ⟨?_, ?_, ?_, ?_, ?_⟩
  · intro ts v now st; simp [applyEvent, set_speed]
  · intro ts v now st; simp [applyEvent, set_speed]
  · intro ts v now st; simp [applyEvent, set_speed]
  · intro es e now st he
    rw [runEvents, List.foldl_append]
    exact sampleOf_applyMetric e now _ st he
  · intro es now st hall
    induction es generalizing st with
    | nil => rfl
    | cons x t ih =>
        have hx : isMetric x = true := hall x (List.mem_cons_self x t)
        have ht : ∀ y ∈ t, isMetric y = true :=
          fun y hy => hall y (List.mem_cons_of_mem x hy)
        calc frameOf (runEvents now (x :: t) st)
            = frameOf (runEvents now t (applyEvent x now st)) := by
              simp [runEvents]
          _ = frameOf (applyEvent x now st) := ih _ ht
          _ = frameOf st := frameOf_applyMetric x now st hx

/-- Witness for `c5_metric_sample`: after a `rate` then a `stats` event
the sample is the `stats` one, and the frame of the empty state is
untouched. -/
theorem c5_metric_sample_witness :
    sampleOf (runEvents 7
        ([Event.rate "t1" "1.0"] ++ [Event.stats "t2" "2.0"]) State.empty) =
      sampleOf (applyEvent (Event.stats "t2" "2.0") 7 State.empty) ∧
    frameOf (runEvents 7 [Event.rate "t1" "1.0", Event.stats "t2" "2.0"]
        State.empty) = frameOf State.empty :=
  ⟨c5_metric_sample.2.2.2.1 [Event.rate "t1" "1.0"]
     (Event.stats "t2" "2.0") 7 State.empty (by decide),
   c5_metric_sample.2.2.2.2 [Event.rate "t1" "1.0", Event.stats "t2" "2.0"]
     7 State.empty (by decide)⟩

/-- On the path where an active subject is selected and its name
resolves, the report is decided by the effective status and the
freshness test alone. -/
theorem reportMsg_resolved (st : State) (r : String → Option String)
    (now : Nat) (a name : String) (hpick : pick_active st = some a)
    (ha : a ≠ "") (hname : (r a).getD "" = name) (hne : name ≠ "") :
    reportMsg st r now =
      if effStatus st a = "Пауза" then Msg.paused name (effStatus st a)
      else if speedFresh st now then
        Msg.speedVal name (effStatus st a) (st.speed.getD "")
      else Msg.speedUnknown name (effStatus st a) := by
  rw [reportMsg, hpick]
  simp only [hname]
  rw [if_neg ha, if_neg hne]

/-- C3 (amended): on a tick with a selected, resolvable active subject
`a`, the status rendered is `effStatus`: the `status-by-subject` entry
of `a` when present (the `?` placeholder if that entry is empty), and
only otherwise the cached ActiveSubject status (the `?` placeholder if
that cache is empty) — i.e. the stored entry takes precedence over the
cached ActiveSubject status, not the other way round. -/
theorem c3_effective_status :
    ∀ (st : State) (r : String → Option String) (now : Nat)
      (a name : String),
      pick_active st = some a → a ≠ "" → (r a).getD "" = name →
      name ≠ "" →
      (reportMsg st r now).status = some (effStatus st a) ∧
      (∀ v, lookup a st.app_status = some v →
        effStatus st a = if v = "" then "?" else v) ∧
      (lookup a st.app_status = none →
        effStatus st a =
          if st.active_status = "" then "?" else st.active_status) := by
  intro st r now a name hpick ha hname hne
  refine ⟨?_, ?_, ?_⟩
  · rw [reportMsg_resolved st r now a name hpick ha hname hne]
    by_cases hp : effStatus st a = "Пауза"
    · simp [hp, Msg.status]
    · by_cases hf : speedFresh st now <;> simp [hp, hf, Msg.status]
  · intro v hv
    simp [effStatus, hv]
  · intro hv
    simp [effStatus, hv]

/-- Witness for `c3_effective_status` at a concrete downloading state. -/
theorem c3_effective_status_witness :
    (reportMsg (runLines 100 downloadLines State.empty) resolveGameX
        100).status =
      some (effStatus (runLines 100 downloadLines State.empty) "10") :=
  (c3_effective_status (runLines 100 downloadLines State.empty)
    resolveGameX 100 "10" "Game X" (by decide) (by decide) (by decide)
    (by decide)).1

/-- C3, counterexample: in the reachable state after `lockstepLines` the
cached ActiveSubject status is `Скачивание`, yet the tick renders the
`status-by-subject` entry `Нет` — the stored entry, not the cached
status, takes precedence. -/
theorem c3_precedence_counterexample :
    (reportMsg (runLines 100 lockstepLines State.empty) resolveGameX
        100).status = some "Нет" ∧
    (runLines 100 lockstepLines State.empty).active_status =
      "Скачивание" ∧
    ("Нет" : String) ≠ "Скачивание" := by
  decide

/-- C9: when the resolver yields no display name for the selected active
subject (`None` or an empty name, both falsy to the source's
`if not name`), the tick degrades to the `nothing active` message — the
same message as when no subject is selected, not an error. -/
theorem c9_unresolvable_name :
    ∀ (st : State) (r : String → Option String) (now : Nat) (a : String),
      pick_active st = some a → a ≠ "" → (r a).getD "" = "" →
      reportMsg st r now = Msg.nothingActive := by
  intro st r now a hpick ha hr
  rw [reportMsg, hpick]
  simp only [hr]
  rw [if_neg ha]
  simp

/-- Witness for `c9_unresolvable_name`: subject 10 is active but the
resolver knows nothing. -/
theorem c9_unresolvable_name_witness :
    reportMsg (runLines 100 downloadLines State.empty)
      (fun _ => none) 100 = Msg.nothingActive :=
  c9_unresolvable_name (runLines 100 downloadLines State.empty)
    (fun _ => none) 100 "10" (by decide) (by decide) (by decide)

/-- C6: staleness of the metric sample.  First part, over every tick
whatsoever: a sample older than `stale_sec` (300 s) on the host clock is
never rendered as a numeric value (no `Msg.speedVal` report exists).
Second part, on the metric-rendering path (selected subject, resolved
name, non-paused effective status): an absent or stale sample renders the
`?` placeholder, and a present sample aged at most 300 s renders its
numeric value. -/
theorem c6_staleness :
    ∀ (st : State) (r : String → Option String) (now : Nat),
      (stale_sec < now - st.speed_wall_ts →
        ∀ n s v, reportMsg st r now ≠ Msg.speedVal n s v) ∧
      (∀ a name, pick_active st = some a → a ≠ "" →
        (r a).getD "" = name → name ≠ "" → effStatus st a ≠ "Пауза" →
        ((st.speed = none ∨ stale_sec < now - st.speed_wall_ts) →
          reportMsg st r now = Msg.speedUnknown name (effStatus st a)) ∧
        (∀ v, st.speed = some v → now - st.speed_wall_ts ≤ stale_sec →
          reportMsg st r now = Msg.speedVal name (effStatus st a) v)) := by
  intro st r now
  constructor
  · intro hstale n s v
    have hsf : speedFresh st now = false := by
      rw [speedFresh]
      rcases h : st.speed with _ | w
      · simp
      · simp only [Option.isSome_some, Bool.true_and, decide_eq_false_iff_not]
        omega
    rcases hpk : pick_active st with _ | a
    · simp [reportMsg, hpk]
    · by_cases ha : a = ""
      · simp [reportMsg, hpk, ha]
      · by_cases hname0 : (r a).getD "" = ""
        · simp [reportMsg, hpk, ha, hname0]
        · rw [reportMsg_resolved st r now a ((r a).getD "") hpk ha rfl
            hname0]
          by_cases hp : effStatus st a = "Пауза" <;> simp [hp, hsf]
  · intro a name hpick ha hname hne hnp
    constructor
    · intro hd
      have hsf : speedFresh st now = false := by
        rw [speedFresh]
        rcases hd with hd | hd
        · simp [hd]
        · rcases h : st.speed with _ | w
          · simp
          · simp only [Option.isSome_some, Bool.true_and,
              decide_eq_false_iff_not]
            omega
      rw [reportMsg_resolved st r now a name hpick ha hname hne,
        if_neg hnp, hsf]
      simp
    · intro v hv hfresh
      have hsf : speedFresh st now = true := by
        rw [speedFresh, hv]
        simpa using hfresh
      rw [reportMsg_resolved st r now a name hpick ha hname hne,
        if_neg hnp, hsf]
      simp [hv]

/-- Witness for `c6_staleness`: one concrete downloading state, reported
at 301 s after receipt (placeholder) and at 300 s after receipt (numeric
value). -/
theorem c6_staleness_witness :
    reportMsg (runLines 100 downloadLines State.empty) resolveGameX 401 =
      Msg.speedUnknown "Game X"
        (effStatus (runLines 100 downloadLines State.empty) "10") ∧
    reportMsg (runLines 100 downloadLines State.empty) resolveGameX 400 =
      Msg.speedVal "Game X"
        (effStatus (runLines 100 downloadLines State.empty) "10")
        "12.5" :=
  ⟨((c6_staleness (runLines 100 downloadLines State.empty) resolveGameX
      401).2 "10" "Game X" (by decide) (by decide) (by decide) (by decide)
      (by decide)).1 (Or.inr (by decide)),
   ((c6_staleness (runLines 100 downloadLines State.empty) resolveGameX
      400).2 "10" "Game X" (by decide) (by decide) (by decide) (by decide)
      (by decide)).2 "12.5" (by decide) (by decide)⟩

/-- C8, counterexample: on a concrete fresh-metric tick (the end-to-end
scenario of the spec: subject 10 started, rate 12.5, name `Game X`), the
emitted line carries a trailing `" | "` after `Mbps` (source line 303),
so it is not of the claimed form with nothing following `Mbps`. -/
theorem c8_trailing_counterexample :
    renderMsg "2024-01-01 10:00:02"
        (reportMsg (runLines 100 downloadLines State.empty) resolveGameX
          100) =
      "[2024-01-01 10:00:02] Game X | Скачивание | скорость: 12.500 Mbps | " ∧
    "[2024-01-01 10:00:02] Game X | Скачивание | скорость: 12.500 Mbps | " ≠
      "[2024-01-01 10:00:02] Game X | Скачивание | скорость: 12.500 Mbps" := by
  decide

/-- C8 (amended): on every fresh-metric tick (selected subject, resolved
name, non-paused status, present sample at most 300 s old) the emitted
line is exactly
`[<timestamp>] <name> | <status> | скорость: <value to 3 decimal places> Mbps | `
— the claimed form followed by a trailing `" | "` separator. -/
theorem c8_fresh_metric_line :
    ∀ (st : State) (r : String → Option String) (now : Nat)
      (a name v out_time : String),
      pick_active st = some a → a ≠ "" → (r a).getD "" = name →
      name ≠ "" → effStatus st a ≠ "Пауза" → st.speed = some v →
      now - st.speed_wall_ts ≤ stale_sec →
      renderMsg out_time (reportMsg st r now) =
        "[" ++ out_time ++ "] " ++ name ++ " | " ++ effStatus st a ++
          " | скорость: " ++ fmt3 v ++ " Mbps | " := by
  intro st r now a name v out_time hpick ha hname hne hnp hv hfresh
  have hsf : speedFresh st now = true := by
    rw [speedFresh, hv]
    simpa using hfresh
  rw [reportMsg_resolved st r now a name hpick ha hname hne,
    if_neg hnp, hsf]
  simp [renderMsg, hv]

/-- Witness for `c8_fresh_metric_line` at the concrete end-to-end
scenario. -/
theorem c8_fresh_metric_line_witness :
    renderMsg "2024-01-01 10:00:02"
        (reportMsg (runLines 100 downloadLines State.empty) resolveGameX
          100) =
      "[" ++ "2024-01-01 10:00:02" ++ "] " ++ "Game X" ++ " | " ++
        effStatus (runLines 100 downloadLines State.empty) "10" ++
        " | скорость: " ++ fmt3 "12.5" ++ " Mbps | " :=
  c8_fresh_metric_line (runLines 100 downloadLines State.empty)
    resolveGameX 100 "10" "Game X" "12.5" "2024-01-01 10:00:02"
    (by decide) (by decide) (by decide) (by decide) (by decide)
    (by decide) (by decide)

/-- C7: whenever the tailer observes the snapshot size strictly below the
cursor, the loop iteration is exactly a reopen; the reopen sets the
cursor to the snapshot's size (the offset after the last line consumed),
which stays strictly below the old cursor, so no read happens at the old
offset; the seek start is `max(0, size - 200000)`; when the window covers
the whole file (`start = 0`) every line of the snapshot is replayed with
nothing discarded, and when `start > 0` the remainder of the partial line
at `start` is discarded and the rest replayed. -/
theorem c7_reopen_on_shrink :
    ∀ (c : List Char) (pos now : Nat) (st : State),
      c.length < pos →
      tailStep c pos now st = reopen_tail c now st ∧
      (reopen_tail c now st).2 = c.length ∧
      (reopen_tail c now st).2 < pos ∧
      ((reopenStart c.length : Int) =
        max 0 ((c.length : Int) - 200000)) ∧
      (reopenStart c.length = 0 →
        (reopen_tail c now st).1 = runLines now (linesOf c) st) ∧
      (0 < reopenStart c.length →
        (reopen_tail c now st).1 =
          runLines now
            (linesOf (dropThroughNL (c.drop (reopenStart c.length))))
            st) := by
  intro c pos now st hlt
  refine ⟨?_, rfl, hlt, ?_, ?_, ?_⟩
  · rw [tailStep, if_pos hlt]
    have hln : lineAt c (reopen_tail c now st).2 = [] := by
      show lineAt c c.length = []
      simp [lineAt, List.drop_length]
    simp [hln]
  · rw [reopenStart, WINDOW_BYTES]
    omega
  · intro h0
    rw [reopen_tail]
    simp [h0]
  · intro h0
    rw [reopen_tail]
    simp [reopenStart] at h0 ⊢
    rw [if_pos h0]

/-- Witness for `c7_reopen_on_shrink`: the spec's rotation scenario with
a 50-byte replacement observed at cursor 1000 — the iteration reopens,
the seek start is 0, every line of the snapshot is replayed, and the new
cursor 50 stays below 1000. -/
theorem c7_reopen_on_shrink_witness :
    tailStep smallContent 1000 5 State.empty =
      reopen_tail smallContent 5 State.empty ∧
    (reopen_tail smallContent 5 State.empty).2 = 50 ∧
    (reopen_tail smallContent 5 State.empty).2 < 1000 ∧
    reopenStart smallContent.length = 0 ∧
    (reopen_tail smallContent 5 State.empty).1 =
      runLines 5 (linesOf smallContent) State.empty := by
  have h := c7_reopen_on_shrink smallContent 1000 5 State.empty
    (by decide)
  exact ⟨h.1, by decide, h.2.2.1, by decide,
    h.2.2.2.2.1 (by decide)⟩

end Monitor
